import Mathlib

/-!
Shallow embedding of the getcontacts repository core:
* `contact_calc/salt_bridges.py` — the salt-bridge detector
  (`filter_dual_selection_salt_bridges`, `prep_salt_bridge_computation`,
  `compute_salt_bridges`), parameterized over the external Structure
  Provider (the VMD-backed helpers `get_anion_atoms`, `get_cation_atoms`,
  `get_selection_atoms`, `compute_distance` imported from
  `contact_calc.contact_utils`, which the spec declares an external
  collaborator of the detector),
* `get_contact_flare.py` — `parse_itypes` and the flare graph builder
  `create_graph`.

Python dynamic values are modelled as follows: atom labels and residue keys
are `String`, distances are `ℚ`, dictionaries are association lists read
through `List.lookup` (first binding wins, as for a dict whose keys are
unique), Python `None` is `Option.none`, and a Python function that appends
to an accumulator list inside a `for` loop is a `foldl`/`flatMap` over the
same iteration order.  Python string primitives used by the source
(`<`-comparison by code point, substring containment via `in`, and
`str.split(",")`) are re-implemented structurally on the character list of
the string so that all definitions compute.
-/

namespace GetContacts

/-- Python string `<` on code points, on character lists. -/
def charsLt : List Char → List Char → Bool
  | [], [] => false
  | [], _ :: _ => true
  | _ :: _, [] => false
  | a :: as, b :: bs =>
    if a.val.toNat < b.val.toNat then true
    else if b.val.toNat < a.val.toNat then false
    else charsLt as bs

/-- Python `a > b` on strings (lexicographic by code point). -/
def strGt (a b : String) : Bool := charsLt b.data a.data

/-- Whether `hay` begins with `sub` (helper for substring containment). -/
def leadEq : List Char → List Char → Bool
  | [], _ => true
  | _ :: _, [] => false
  | a :: as, b :: bs => a == b && leadEq as bs

/-- Python `sub in hay` for strings: substring containment. -/
def hasSubstr (sub : List Char) : List Char → Bool
  | [] => leadEq sub []
  | c :: cs => leadEq sub (c :: cs) || hasSubstr sub cs

/-- Python `s.split(",")` on a character list: split at every comma,
keeping empty pieces (`"".split(",") == [""]`). -/
def splitComma : List Char → List (List Char)
  | [] => [[]]
  | c :: cs =>
    if c = ',' then [] :: splitComma cs
    else
      match splitComma cs with
      | [] => [[c]]
      | t :: ts => (c :: t) :: ts

/-- Python `s.split(",")` on strings. -/
def splitCommaStr (s : String) : List String :=
  (splitComma s.data).map String.mk

/-!
## Structure Provider

`contact_calc/salt_bridges.py` star-imports `contact_calc.contact_utils`,
whose query helpers wrap the external molecular-simulation toolkit (VMD).
The spec treats them as an external collaborator exposing read-only pure
queries, so the detector is embedded as a function of an explicit provider
record.  Every field takes the trajectory-fragment id and the frame index
first, mirroring the Python call signatures.
-/

structure StructureProvider where
  get_anion_atoms : Nat → Nat → Option String → Option String → List String
  get_cation_atoms : Nat → Nat → Option String → Option String → List String
  get_selection_atoms : Nat → Nat → String → List String
  compute_distance : Nat → Nat → String → String → ℚ

/-- One salt-bridge contact record `[frame_idx, "sb", anion_atom, cation_atom]`. -/
structure SBRecord where
  frame : Nat
  itype : String
  atom1 : String
  atom2 : String
deriving DecidableEq, Repr

/-- Embeds `filter_dual_selection_salt_bridges` of `contact_calc/salt_bridges.py`:
returns `true` ("filter out") unless the pair crosses the two selections. -/
def filter_dual_selection_salt_bridges (sele1_atoms sele2_atoms : List String)
    (anion_atom cation_atom : String) : Bool :=
  let dual_sel1 := sele1_atoms.contains anion_atom && sele2_atoms.contains cation_atom
  let dual_sel2 := sele2_atoms.contains anion_atom && sele1_atoms.contains cation_atom
  if dual_sel1 || dual_sel2 then false else true

/-- Embeds `prep_salt_bridge_computation` of `contact_calc/salt_bridges.py`. -/
def prep_salt_bridge_computation (P : StructureProvider)
    (traj_frag_molid frame_idx : Nat) (sele_id sele_id2 : Option String) :
    List String × List String :=
  (P.get_anion_atoms traj_frag_molid frame_idx sele_id sele_id2,
   P.get_cation_atoms traj_frag_molid frame_idx sele_id sele_id2)

/-- The selection-atom pair computed by `compute_salt_bridges` when — and only
when — both selection queries are present (`sele_id != None and sele_id2 != None`). -/
def sb_selections (P : StructureProvider) (traj_frag_molid frame_idx : Nat)
    (sele_id sele_id2 : Option String) : Option (List String × List String) :=
  match sele_id, sele_id2 with
  | some s1, some s2 =>
      some (P.get_selection_atoms traj_frag_molid frame_idx s1,
            P.get_selection_atoms traj_frag_molid frame_idx s2)
  | _, _ => none

/-- The per-pair guard of the inner loop of `compute_salt_bridges`: with both
selections present the dual-selection filter decides, otherwise no pair is
rejected. -/
def sb_pair_rejected (sels : Option (List String × List String))
    (anion_atom cation_atom : String) : Bool :=
  match sels with
  | some sel => filter_dual_selection_salt_bridges sel.1 sel.2 anion_atom cation_atom
  | none => false

/-- Embeds `compute_salt_bridges` of `contact_calc/salt_bridges.py`: cross product of
anion and cation candidates; dual-selection guard first, then the strict
distance test against the cutoff (default `4.0`). -/
def compute_salt_bridges (P : StructureProvider) (traj_frag_molid frame_idx : Nat)
    (sele_id sele_id2 : Option String) (cutoff : ℚ) : List SBRecord :=
  let prepped := prep_salt_bridge_computation P traj_frag_molid frame_idx sele_id sele_id2
  let sels := sb_selections P traj_frag_molid frame_idx sele_id sele_id2
  prepped.1.flatMap fun anion_atom =>
    prepped.2.flatMap fun cation_atom =>
      if sb_pair_rejected sels anion_atom cation_atom = true then []
      else if P.compute_distance traj_frag_molid frame_idx anion_atom cation_atom < cutoff then
        [⟨frame_idx, "sb", anion_atom, cation_atom⟩]
      else []

/-!
## `get_contact_flare.py`: `parse_itypes`
-/

/-- The list of all interaction-type tags returned by `parse_itypes` for an
argument containing `"all"`. -/
def all_itypes : List String :=
  ["sb", "pc", "ps", "ts", "vdw", "hb", "lhb", "hbbb", "hbsb",
   "hbss", "wb", "wb2", "hls", "hlb", "lwb", "lwb2"]

/-- Embeds `parse_itypes` of `get_contact_flare.py`.  The Python function returns a
`list` in the `"all"` branch and a `set` of the comma-separated tokens
otherwise; the two result shapes are kept apart in a sum. -/
def parse_itypes (itype_argument : String) : List String ⊕ Finset String :=
  if hasSubstr "all".data itype_argument.data then Sum.inl all_itypes
  else Sum.inr (splitCommaStr itype_argument).toFinset

/-!
## `get_contact_flare.py`: the flare graph builder `create_graph`

A contact, as consumed by `create_graph`, carries the frame index, the
interaction-type tag and (at least) two participant atom tuples; each atom
tuple is the list of colon-separated fields of the atom label.  The builder
aggregates records into an association list mapping the contact key (the
concatenation of the lexicographically ordered residue-key pair) to the
edge dictionary it created, which models both `resi_edges` and
`ret["edges"]` of the Python (the latter holds the same dictionaries in the
same insertion order).
-/

structure Contact where
  frame : Nat
  itype : String
  atom1 : List String
  atom2 : List String
deriving DecidableEq, Repr

/-- A value of the residue-label dictionary built from a flare-label file:
`{"label": ..., "treepath": ..., "color": ...}`. -/
structure ResiLabel where
  label : String
  treepath : String
  color : String
deriving DecidableEq, Repr

/-- An `{"name1": ..., "name2": ..., "frames": ...}` edge dictionary. -/
structure FlareEdge where
  name1 : String
  name2 : String
  frames : List Nat
deriving DecidableEq, Repr

structure FlareTree where
  treeLabel : String
  treePaths : List String
deriving DecidableEq, Repr

structure TrackProp where
  nodeName : String
  color : String
  size : ℚ
deriving DecidableEq, Repr

structure FlareTrack where
  trackLabel : String
  trackProperties : List TrackProp
deriving DecidableEq, Repr

/-- The dictionary returned by `create_graph`; `trees`/`tracks` are present
exactly when `resi_labels is not None`. -/
structure FlareGraphJson where
  edges : List FlareEdge
  trees : Option (List FlareTree)
  tracks : Option (List FlareTrack)
deriving DecidableEq, Repr

/-- The residue key of an atom tuple: `":".join(atom[0:3])`. -/
def residue_key (atom : List String) : String :=
  String.intercalate ":" (atom.take 3)

/-- The residue-key pair of a contact after the swap
`if a1_key > a2_key: a1_key, a2_key = a2_key, a1_key`. -/
def canonical_pair (c : Contact) : String × String :=
  if strGt (residue_key c.atom1) (residue_key c.atom2)
  then (residue_key c.atom2, residue_key c.atom1)
  else (residue_key c.atom1, residue_key c.atom2)

/-- The grouping key `contact_key = a1_key + a2_key` (string concatenation of the ordered pair). -/
def contact_key (c : Contact) : String :=
  (canonical_pair c).1 ++ (canonical_pair c).2

/-- Creating/updating the edge for `key`: if absent, a fresh edge named
`(n1, n2)` is appended (Python creates it with `frames: []` and then
appends the frame, hence `[f]` here); if present, the frame index is
appended to the stored edge's frame list. -/
def record_edge (resi_edges : List (String × FlareEdge)) (key n1 n2 : String)
    (f : Nat) : List (String × FlareEdge) :=
  if (resi_edges.lookup key).isSome then
    resi_edges.map fun kv =>
      if kv.1 = key then (kv.1, ⟨kv.2.name1, kv.2.name2, kv.2.frames ++ [f]⟩) else kv
  else
    resi_edges ++ [(key, ⟨n1, n2, [f]⟩)]

/-- The body of the `for contact in contacts` loop of `create_graph`:
self-loop records are skipped; with a truthy (non-`None`, nonempty) label
table, records with an unlabeled residue key are skipped and edge names come
from the table's `label` fields; otherwise the raw residue keys name the edge. -/
def add_contact (resi_labels : Option (List (String × ResiLabel)))
    (resi_edges : List (String × FlareEdge)) (c : Contact) :
    List (String × FlareEdge) :=
  if residue_key c.atom1 = residue_key c.atom2 then resi_edges
  else
    let p := canonical_pair c
    match resi_labels with
    | some (kv0 :: rest) =>
      match (kv0 :: rest).lookup p.1, (kv0 :: rest).lookup p.2 with
      | some l1, some l2 =>
          record_edge resi_edges (contact_key c) l1.label l2.label c.frame
      | _, _ => resi_edges
    | _ => record_edge resi_edges (contact_key c) p.1 p.2 c.frame

/-- The per-record truncation
`(c[0], c[1], c[2][0:3], c[3][0:3])` applied by `create_graph` before the loop. -/
def strip_contact (c : Contact) : Contact :=
  { c with atom1 := c.atom1.take 3, atom2 := c.atom2.take 3 }

/-- Embeds `create_graph` of `get_contact_flare.py`.  Participant tuples are first
truncated to their residue fields (`c[2][0:3]`, `c[3][0:3]`), records are
folded into the edge table, each edge's frame list is finalized to
`sorted(set(frames))`, and `trees`/`tracks` are emitted from the label table
when one was passed (Python tests `resi_labels is not None` there). -/
def create_graph (contacts : List Contact)
    (resi_labels : Option (List (String × ResiLabel))) : FlareGraphJson :=
  let stripped := contacts.map strip_contact
  let resi_edges := stripped.foldl (add_contact resi_labels) []
  { edges := resi_edges.map fun kv =>
      ⟨kv.2.name1, kv.2.name2, List.insertionSort (· ≤ ·) kv.2.frames.dedup⟩,
    trees := match resi_labels with
      | some tbl => some [⟨"DefaultTree", tbl.map fun kv => kv.2.treepath⟩]
      | none => none,
    tracks := match resi_labels with
      | some tbl =>
          some [⟨"DefaultTrack", tbl.map fun kv => ⟨kv.2.label, kv.2.color, 1⟩⟩]
      | none => none }

/-!
## Claim theorems
-/

/-- C2: the Selection-Scope Filter accepts a candidate pair (returns `false`,
i.e. does not filter it out) if and only if the anion is in selection 1 and
the cation in selection 2, or vice versa; with `S1 = {A}`, `S2 = {B}` the
pair `(A, B)` is accepted while `(A, A)` and `(B, B)` are rejected. -/
theorem dual_selection_filter_accepts_iff :
    (∀ (sele1_atoms sele2_atoms : List String) (anion_atom cation_atom : String),
      filter_dual_selection_salt_bridges sele1_atoms sele2_atoms anion_atom cation_atom
          = false ↔
        ((anion_atom ∈ sele1_atoms ∧ cation_atom ∈ sele2_atoms) ∨
         (anion_atom ∈ sele2_atoms ∧ cation_atom ∈ sele1_atoms)))
    ∧ filter_dual_selection_salt_bridges ["A"] ["B"] "A" "B" = false
    ∧ filter_dual_selection_salt_bridges ["A"] ["B"] "A" "A" = true
    ∧ filter_dual_selection_salt_bridges ["A"] ["B"] "B" "B" = true := by
  refine ⟨fun s1 s2 a c => ?_, by decide, by decide, by decide⟩
  by_cases h : (s1.contains a && s2.contains c || (s2.contains a && s1.contains c)) = true
  · rw [filter_dual_selection_salt_bridges, if_pos h]
    simpa using h
  · rw [filter_dual_selection_salt_bridges, if_neg h]
    constructor
    · intro hfalse
      exact absurd hfalse (by decide)
    · intro hmem
      exact absurd (by simpa using hmem) h

/-- C10: `parse_itypes` returns the full 16-element known-tag list whenever
`"all"` occurs as a substring of its argument (so also for `"sb,all"` and
`"ball"`), and otherwise returns the set of comma-separated tokens of the
argument with no validation against the known tags (e.g. `"sb,bogus"` yields
`{"sb", "bogus"}`). -/
theorem parse_itypes_spec :
    (∀ s : String, hasSubstr "all".data s.data = true →
      parse_itypes s = Sum.inl all_itypes)
    ∧ all_itypes.length = 16
    ∧ parse_itypes "sb,all" = Sum.inl all_itypes
    ∧ parse_itypes "ball" = Sum.inl all_itypes
    ∧ (∀ s : String, hasSubstr "all".data s.data = false →
        parse_itypes s = Sum.inr (splitCommaStr s).toFinset)
    ∧ parse_itypes "sb,bogus" = Sum.inr {"sb", "bogus"} := by
  refine ⟨fun s h => ?_, by decide, by decide, by decide, fun s h => ?_, by decide⟩
  · rw [parse_itypes, if_pos h]
  · rw [parse_itypes, if_neg (by simp [h])]

/-- Witness for `parse_itypes_spec` at the concrete inputs `"xall"`
(substring hit through a token boundary) and `"hb"` (no hit). -/
theorem parse_itypes_spec_witness :
    (hasSubstr "all".data "xall".data = true
      ∧ parse_itypes "xall" = Sum.inl all_itypes)
    ∧ (hasSubstr "all".data "hb".data = false
      ∧ parse_itypes "hb" = Sum.inr (splitCommaStr "hb").toFinset) :=
  ⟨⟨by decide, parse_itypes_spec.1 "xall" (by decide)⟩,
   ⟨by decide, parse_itypes_spec.2.2.2.2.1 "hb" (by decide)⟩⟩

/-- Provider for the cutoff-boundary check: one anion `"OD1"`, one cation
`"NZ"`, and the constant distance `d` for every pair. -/
def sb_boundary_provider (d : ℚ) : StructureProvider :=
  ⟨fun _ _ _ _ => ["OD1"], fun _ _ _ _ => ["NZ"], fun _ _ _ => [], fun _ _ _ _ => d⟩

/-- C3: a record `(frame, "sb", anion, cation)` is emitted exactly when the
pair is an anion/cation candidate pair that passes the selection guard and
whose provider distance is strictly below the cutoff; concretely, at
distance exactly `4` (the default cutoff) nothing is reported, while at
distance `4 - 1` the contact is reported. -/
theorem salt_bridge_strict_cutoff :
    (∀ (P : StructureProvider) (mol f : Nat) (s1 s2 : Option String) (cutoff : ℚ)
       (a c : String),
      (⟨f, "sb", a, c⟩ : SBRecord) ∈ compute_salt_bridges P mol f s1 s2 cutoff ↔
        (a ∈ P.get_anion_atoms mol f s1 s2 ∧ c ∈ P.get_cation_atoms mol f s1 s2 ∧
         sb_pair_rejected (sb_selections P mol f s1 s2) a c = false ∧
         P.compute_distance mol f a c < cutoff))
    ∧ compute_salt_bridges (sb_boundary_provider 4) 0 0 none none 4 = []
    ∧ compute_salt_bridges (sb_boundary_provider 3) 0 0 none none 4
        = [⟨0, "sb", "OD1", "NZ"⟩] := by
  refine ⟨fun P mol f s1 s2 cutoff a c => ?_, by decide, by decide⟩
  simp only [compute_salt_bridges, prep_salt_bridge_computation, List.mem_flatMap]
  constructor
  · rintro ⟨a', ha', c', hc', hrec⟩
    by_cases hrej : sb_pair_rejected (sb_selections P mol f s1 s2) a' c' = true
    · rw [if_pos hrej] at hrec
      exact absurd hrec (List.not_mem_nil _)
    · rw [if_neg hrej] at hrec
      by_cases hd : P.compute_distance mol f a' c' < cutoff
      · rw [if_pos hd] at hrec
        have heq := List.mem_singleton.mp hrec
        injection heq with h1 h2 h3 h4
        subst h3; subst h4
        exact ⟨ha', hc', by simpa using hrej, hd⟩
      · rw [if_neg hd] at hrec
        exact absurd hrec (List.not_mem_nil _)
  · rintro ⟨ha, hc, hrej, hd⟩
    refine ⟨a, ha, c, hc, ?_⟩
    rw [if_neg (by simp [hrej]), if_pos hd]
    exact List.mem_singleton.mpr rfl

/-- The unconditional cross-product distance scan: every anion/cation pair is
distance-tested and kept exactly when the distance is below the cutoff. -/
def sb_distance_scan (P : StructureProvider) (traj_frag_molid frame_idx : Nat)
    (sele_id sele_id2 : Option String) (cutoff : ℚ) : List SBRecord :=
  (P.get_anion_atoms traj_frag_molid frame_idx sele_id sele_id2).flatMap fun anion_atom =>
    (P.get_cation_atoms traj_frag_molid frame_idx sele_id sele_id2).flatMap fun cation_atom =>
      if P.compute_distance traj_frag_molid frame_idx anion_atom cation_atom < cutoff then
        [⟨frame_idx, "sb", anion_atom, cation_atom⟩]
      else []

/-- C9: when either selection query is absent the detector applies no
pair-level filtering at all — its output is the full cross-product distance
scan, so acceptance depends only on the distance being below the cutoff. -/
theorem no_filter_when_selection_missing :
    ∀ (P : StructureProvider) (mol f : Nat) (s1 s2 : Option String) (cutoff : ℚ),
      s1 = none ∨ s2 = none →
      compute_salt_bridges P mol f s1 s2 cutoff = sb_distance_scan P mol f s1 s2 cutoff := by
  intro P mol f s1 s2 cutoff h
  rcases h with h | h
  · subst h
    cases s2 <;>
      simp [compute_salt_bridges, prep_salt_bridge_computation, sb_selections,
        sb_pair_rejected, sb_distance_scan]
  · subst h
    cases s1 <;>
      simp [compute_salt_bridges, prep_salt_bridge_computation, sb_selections,
        sb_pair_rejected, sb_distance_scan]

/-- Witness for `no_filter_when_selection_missing` with only the second
selection missing. -/
theorem no_filter_when_selection_missing_witness :
    ((some "chain A" : Option String) = none ∨ (none : Option String) = none)
    ∧ compute_salt_bridges (sb_boundary_provider 3) 0 0 (some "chain A") none 4
        = sb_distance_scan (sb_boundary_provider 3) 0 0 (some "chain A") none 4 :=
  ⟨Or.inr rfl,
   no_filter_when_selection_missing (sb_boundary_provider 3) 0 0 (some "chain A") none 4
     (Or.inr rfl)⟩

/-- C8: with two selection scopes active, the detector's output does not
depend on what distances the provider would report for pairs rejected by the
Selection-Scope Filter: two providers agreeing on everything except the
distances of rejected pairs produce identical contact lists. -/
theorem sb_output_ignores_rejected_distances :
    ∀ (P Q : StructureProvider) (mol f : Nat) (s1 s2 : String) (cutoff : ℚ),
      Q.get_anion_atoms = P.get_anion_atoms →
      Q.get_cation_atoms = P.get_cation_atoms →
      Q.get_selection_atoms = P.get_selection_atoms →
      (∀ a c, filter_dual_selection_salt_bridges (P.get_selection_atoms mol f s1)
          (P.get_selection_atoms mol f s2) a c = false →
          Q.compute_distance mol f a c = P.compute_distance mol f a c) →
      compute_salt_bridges Q mol f (some s1) (some s2) cutoff
        = compute_salt_bridges P mol f (some s1) (some s2) cutoff := by
  intro P Q mol f s1 s2 cutoff hA hC hS hD
  simp only [compute_salt_bridges, prep_salt_bridge_computation, sb_selections, hA, hC, hS]
  refine List.flatMap_congr fun a ha => List.flatMap_congr fun c hc => ?_
  by_cases hrej :
      sb_pair_rejected
        (some (P.get_selection_atoms mol f s1, P.get_selection_atoms mol f s2)) a c = true
  · rw [if_pos hrej, if_pos hrej]
  · have hfil : filter_dual_selection_salt_bridges (P.get_selection_atoms mol f s1)
        (P.get_selection_atoms mol f s2) a c = false := by
      simpa [sb_pair_rejected] using hrej
    rw [if_neg hrej, if_neg hrej, hD a c hfil]

/-- Base provider for the C8 witness: selection 1 is `{"A1"}`, selection 2 is
`{"B1"}`, the only candidate pair is `("A1", "C1")` — which the filter
rejects — and every distance is `3`. -/
def sb_c8_provider : StructureProvider :=
  ⟨fun _ _ _ _ => ["A1"], fun _ _ _ _ => ["C1"],
   fun _ _ s => if s = "q1" then ["A1"] else ["B1"], fun _ _ _ _ => 3⟩

/-- Variant of `sb_c8_provider` whose distance for the rejected pair
`("A1", "C1")` is `100` instead of `3`. -/
def sb_c8_provider_alt : StructureProvider :=
  { sb_c8_provider with
    compute_distance := fun _ _ a c => if a = "A1" ∧ c = "C1" then 100 else 3 }

/-- Witness for `sb_output_ignores_rejected_distances`: the two concrete
providers disagree (100 vs 3) on the distance of the rejected pair, yet the
contact lists coincide. -/
theorem sb_output_ignores_rejected_distances_witness :
    sb_c8_provider_alt.compute_distance 0 0 "A1" "C1"
        ≠ sb_c8_provider.compute_distance 0 0 "A1" "C1"
    ∧ compute_salt_bridges sb_c8_provider_alt 0 0 (some "q1") (some "q2") 4
        = compute_salt_bridges sb_c8_provider 0 0 (some "q1") (some "q2") 4 := by
  refine ⟨by decide, ?_⟩
  refine sb_output_ignores_rejected_distances sb_c8_provider sb_c8_provider_alt
    0 0 "q1" "q2" 4 rfl rfl rfl ?_
  intro a c h
  simp only [sb_c8_provider_alt, sb_c8_provider]
  by_cases hac : a = "A1" ∧ c = "C1"
  · obtain ⟨ha, hc⟩ := hac
    subst ha; subst hc
    exact absurd h (by decide)
  · rw [if_neg hac]

/-- Modelled from the spec: the candidate-atom accessors `get_anion_atoms`
and `get_cation_atoms` live in `contact_calc/contact_utils.py`, which is not
under src/; per the spec the anion and cation candidate sets are "derived
once per trajectory (from the first frame, since residue composition does
not change across frames)", so this wraps a provider so that its
candidate-atom accessors answer every frame query with the first frame's
answer. -/
def firstFrameCandidates (P : StructureProvider) : StructureProvider :=
  { P with
    get_anion_atoms := fun mol _ s1 s2 => P.get_anion_atoms mol 0 s1 s2
    get_cation_atoms := fun mol _ s1 s2 => P.get_cation_atoms mol 0 s1 s2 }

/-- C7: for a provider whose candidate accessors behave as the spec
describes, the candidate sets prepared by `prep_salt_bridge_computation` —
which `compute_salt_bridges` invokes with the frame index it is processing —
are the same for every processed frame as for the trajectory's first frame. -/
theorem candidate_sets_from_first_frame :
    ∀ (P : StructureProvider) (mol f : Nat) (s1 s2 : Option String),
      prep_salt_bridge_computation (firstFrameCandidates P) mol f s1 s2
        = prep_salt_bridge_computation (firstFrameCandidates P) mol 0 s1 s2 :=
  fun _ _ _ _ _ => rfl

/-!
### Helper lemmas about the flare graph builder
-/

theorem residue_key_take (l : List String) : residue_key (l.take 3) = residue_key l := by
  simp [residue_key, List.take_take]

theorem residue_key_strip1 (c : Contact) :
    residue_key (strip_contact c).atom1 = residue_key c.atom1 :=
  residue_key_take c.atom1

theorem residue_key_strip2 (c : Contact) :
    residue_key (strip_contact c).atom2 = residue_key c.atom2 :=
  residue_key_take c.atom2

theorem canonical_pair_strip (c : Contact) :
    canonical_pair (strip_contact c) = canonical_pair c := by
  unfold canonical_pair
  rw [residue_key_strip1, residue_key_strip2]

theorem contact_key_strip (c : Contact) :
    contact_key (strip_contact c) = contact_key c := by
  unfold contact_key
  rw [canonical_pair_strip]

theorem canonical_pair_fst_ne_snd (c : Contact)
    (h : residue_key c.atom1 ≠ residue_key c.atom2) :
    (canonical_pair c).1 ≠ (canonical_pair c).2 := by
  unfold canonical_pair
  split
  · exact fun heq => h heq.symm
  · exact h

theorem record_edge_names (s : List (String × FlareEdge)) (key n1 n2 : String) (f : Nat)
    (hs : ∀ kv ∈ s, (kv.2 : FlareEdge).name1 ≠ kv.2.name2) (hnew : n1 ≠ n2) :
    ∀ kv ∈ record_edge s key n1 n2 f, (kv.2 : FlareEdge).name1 ≠ kv.2.name2 := by
  intro kv hkv
  unfold record_edge at hkv
  split at hkv
  · obtain ⟨kv0, hkv0, hkveq⟩ := List.mem_map.mp hkv
    by_cases h0 : kv0.1 = key
    · rw [if_pos h0] at hkveq
      rw [← hkveq]
      exact hs kv0 hkv0
    · rw [if_neg h0] at hkveq
      rw [← hkveq]
      exact hs kv0 hkv0
  · rcases List.mem_append.mp hkv with h | h
    · exact hs kv h
    · rw [List.mem_singleton.mp h]
      exact hnew

theorem add_contact_self_loop (resi_labels : Option (List (String × ResiLabel)))
    (resi_edges : List (String × FlareEdge)) (c : Contact)
    (h : residue_key c.atom1 = residue_key c.atom2) :
    add_contact resi_labels resi_edges c = resi_edges := by
  simp [add_contact, h]

theorem add_contact_none_names (s : List (String × FlareEdge)) (c : Contact)
    (hs : ∀ kv ∈ s, (kv.2 : FlareEdge).name1 ≠ kv.2.name2) :
    ∀ kv ∈ add_contact none s c, (kv.2 : FlareEdge).name1 ≠ kv.2.name2 := by
  by_cases hself : residue_key c.atom1 = residue_key c.atom2
  · rw [add_contact_self_loop none s c hself]
    exact hs
  · have hred : add_contact none s c
        = record_edge s (contact_key c) (canonical_pair c).1 (canonical_pair c).2 c.frame := by
      simp [add_contact, hself]
    rw [hred]
    exact record_edge_names s _ _ _ _ hs (canonical_pair_fst_ne_snd c hself)

theorem foldl_add_contact_none_names (cs : List Contact) (s : List (String × FlareEdge))
    (hs : ∀ kv ∈ s, (kv.2 : FlareEdge).name1 ≠ kv.2.name2) :
    ∀ kv ∈ cs.foldl (add_contact none) s, (kv.2 : FlareEdge).name1 ≠ kv.2.name2 := by
  induction cs generalizing s with
  | nil => exact hs
  | cons c cs ih => exact ih _ (add_contact_none_names s c hs)

/-- C4: a record whose two participants resolve to the same residue key
creates no edge and modifies no existing edge, and consequently (with raw
residue keys as edge names) every edge of the built graph joins two distinct
residue keys. -/
theorem no_self_loop_edges :
    (∀ (resi_labels : Option (List (String × ResiLabel)))
       (resi_edges : List (String × FlareEdge)) (c : Contact),
      residue_key c.atom1 = residue_key c.atom2 →
      add_contact resi_labels resi_edges c = resi_edges)
    ∧ (∀ (contacts : List Contact) (e : FlareEdge),
        e ∈ (create_graph contacts none).edges → e.name1 ≠ e.name2) := by
  refine ⟨add_contact_self_loop, fun contacts e he => ?_⟩
  simp only [create_graph] at he
  obtain ⟨kv, hkv, hkveq⟩ := List.mem_map.mp he
  have hne := foldl_add_contact_none_names (contacts.map strip_contact) []
    (by intro kv h; exact absurd h (List.not_mem_nil _)) kv hkv
  rw [← hkveq]
  exact hne

/-- Witness for `no_self_loop_edges`: a record between two atoms of residue
`A:ARG:4` is dropped, and the sole edge of a small graph has distinct names. -/
theorem no_self_loop_edges_witness :
    (residue_key ["A", "ARG", "4", "NH1"] = residue_key ["A", "ARG", "4", "NH2"]
      ∧ add_contact none [] ⟨0, "sb", ["A", "ARG", "4", "NH1"], ["A", "ARG", "4", "NH2"]⟩ = [])
    ∧ (FlareEdge.mk "A:ARG:4" "A:GLU:10" [0]).name1
        ≠ (FlareEdge.mk "A:ARG:4" "A:GLU:10" [0]).name2 :=
  ⟨⟨by decide,
    no_self_loop_edges.1 none [] ⟨0, "sb", ["A", "ARG", "4", "NH1"], ["A", "ARG", "4", "NH2"]⟩
      (by decide)⟩,
   no_self_loop_edges.2 [⟨0, "sb", ["A", "ARG", "4", "NH1"], ["A", "GLU", "10", "OE1"]⟩]
     ⟨"A:ARG:4", "A:GLU:10", [0]⟩ (by decide)⟩

/-- C5 counterexample: an empty label table is a supplied table from which
every residue key is absent, yet — because the Python guard `if resi_labels:`
tests truthiness, and an empty dict is falsy — the record is not dropped: an
edge is created (with raw keys as names). -/
theorem label_filter_empty_table_counterexample :
    ([] : List (String × ResiLabel)).lookup "A:ARG:4" = none
    ∧ ([] : List (String × ResiLabel)).lookup "A:GLU:10" = none
    ∧ (create_graph [⟨0, "sb", ["A", "ARG", "4", "NH1"], ["A", "GLU", "10", "OE1"]⟩]
        (some [])).edges
      = [⟨"A:ARG:4", "A:GLU:10", [0]⟩] :=
  ⟨rfl, rfl, by decide⟩

/-- C5 (amended): when a **nonempty** label table is supplied, a record either
of whose residue keys has no entry in the table is dropped before any edge is
created or updated — even if the other key is present; the drop leaves the
edge table untouched (a filter condition, not an error). -/
theorem label_filter_drops_unlabeled :
    ∀ (tbl : List (String × ResiLabel)) (resi_edges : List (String × FlareEdge))
      (c : Contact),
      tbl ≠ [] →
      (tbl.lookup (residue_key c.atom1) = none ∨ tbl.lookup (residue_key c.atom2) = none) →
      add_contact (some tbl) resi_edges c = resi_edges := by
  intro tbl s c htbl h
  cases tbl with
  | nil => exact absurd rfl htbl
  | cons kv0 rest =>
    by_cases hself : residue_key c.atom1 = residue_key c.atom2
    · exact add_contact_self_loop _ s c hself
    · have hlp : (kv0 :: rest).lookup (canonical_pair c).1 = none ∨
          (kv0 :: rest).lookup (canonical_pair c).2 = none := by
        rcases h with h | h
        · unfold canonical_pair
          split
          · exact Or.inr h
          · exact Or.inl h
        · unfold canonical_pair
          split
          · exact Or.inl h
          · exact Or.inr h
      rcases hlp with hl | hl
      · cases hl2 : (kv0 :: rest).lookup (canonical_pair c).2 with
        | none => simp [add_contact, hself, hl, hl2]
        | some l2 => simp [add_contact, hself, hl, hl2]
      · cases hl2 : (kv0 :: rest).lookup (canonical_pair c).1 with
        | none => simp [add_contact, hself, hl, hl2]
        | some l1 => simp [add_contact, hself, hl, hl2]

/-- The one-residue label table of the C5 witness. -/
def c5_table : List (String × ResiLabel) :=
  [("A:ARG:4", ⟨"1x30", "Root.Helix1.1x30", "red"⟩)]

/-- Witness for `label_filter_drops_unlabeled`: with a table naming only
`A:ARG:4`, a record between `A:ARG:4` (present) and `A:GLU:10` (absent) is
dropped entirely. -/
theorem label_filter_drops_unlabeled_witness :
    c5_table ≠ []
    ∧ c5_table.lookup (residue_key ["A", "ARG", "4", "NH1"]) ≠ none
    ∧ c5_table.lookup (residue_key ["A", "GLU", "10", "OE1"]) = none
    ∧ add_contact (some c5_table) []
        ⟨0, "sb", ["A", "ARG", "4", "NH1"], ["A", "GLU", "10", "OE1"]⟩ = [] :=
  ⟨by decide, by decide, by decide,
   label_filter_drops_unlabeled c5_table []
     ⟨0, "sb", ["A", "ARG", "4", "NH1"], ["A", "GLU", "10", "OE1"]⟩
     (by decide) (Or.inr (by decide))⟩

theorem add_contact_none_not_self (s : List (String × FlareEdge)) (c : Contact)
    (h : residue_key c.atom1 ≠ residue_key c.atom2) :
    add_contact none s c
      = record_edge s (contact_key c) (canonical_pair c).1 (canonical_pair c).2 c.frame := by
  simp [add_contact, h]

theorem add_contact_none_nil (c : Contact)
    (h : residue_key c.atom1 ≠ residue_key c.atom2) :
    add_contact none [] c
      = [(contact_key c,
          ⟨(canonical_pair c).1, (canonical_pair c).2, [c.frame]⟩)] := by
  rw [add_contact_none_not_self [] c h]
  simp [record_edge]

theorem add_contact_none_singleton_length (k : String) (e : FlareEdge) (c : Contact)
    (h : residue_key c.atom1 ≠ residue_key c.atom2) :
    (add_contact none [(k, e)] c).length = if k = contact_key c then 1 else 2 := by
  rw [add_contact_none_not_self [(k, e)] c h]
  by_cases hk : k = contact_key c
  · simp [record_edge, List.lookup, hk]
  · have hbeq : (contact_key c == k) = false := by
      cases hbe : contact_key c == k with
      | false => rfl
      | true => exact absurd (eq_of_beq hbe).symm hk
    simp [record_edge, List.lookup, hk, hbeq]

/-- C1 counterexample: the two records have different canonically ordered
residue-key pairs, `("a", "bab")` versus `("aba", "b")`, but the grouping key
is the separator-free concatenation of the pair, which is `"abab"` for both —
so they are merged into a single edge carrying both frames. -/
theorem canonical_merge_counterexample :
    canonical_pair ⟨5, "sb", ["a"], ["bab"]⟩ ≠ canonical_pair ⟨7, "sb", ["aba"], ["b"]⟩
    ∧ (create_graph [⟨5, "sb", ["a"], ["bab"]⟩, ⟨7, "sb", ["aba"], ["b"]⟩] none).edges
        = [⟨"a", "bab", [5, 7]⟩] :=
  ⟨by decide, by decide⟩

/-- C1 (amended): two (non-self-loop) records are aggregated into the same
FlareEdge if and only if the **concatenations** of their canonically ordered
residue-key pairs are equal (for colon-delimited keys of the usual shape this
coincides with equality of the pairs, but not for arbitrary keys); in
particular the records `(5, "sb", X, Y)` and `(7, "sb", Y, X)` produce exactly
one edge between `{X, Y}` with frames `[5, 7]`. -/
theorem canonical_merge_iff_contact_key :
    (∀ c1 c2 : Contact,
      residue_key c1.atom1 ≠ residue_key c1.atom2 →
      residue_key c2.atom1 ≠ residue_key c2.atom2 →
      ((create_graph [c1, c2] none).edges.length = 1 ↔ contact_key c1 = contact_key c2))
    ∧ create_graph
        [⟨5, "sb", ["A", "ARG", "4", "NH1"], ["A", "GLU", "10", "OE1"]⟩,
         ⟨7, "sb", ["A", "GLU", "10", "OE1"], ["A", "ARG", "4", "NH1"]⟩] none
      = ⟨[⟨"A:ARG:4", "A:GLU:10", [5, 7]⟩], none, none⟩ := by
  refine ⟨fun c1 c2 h1 h2 => ?_, by decide⟩
  have h1s : residue_key (strip_contact c1).atom1 ≠ residue_key (strip_contact c1).atom2 := by
    rw [residue_key_strip1, residue_key_strip2]; exact h1
  have h2s : residue_key (strip_contact c2).atom1 ≠ residue_key (strip_contact c2).atom2 := by
    rw [residue_key_strip1, residue_key_strip2]; exact h2
  have hlen : (create_graph [c1, c2] none).edges.length
      = (add_contact none (add_contact none [] (strip_contact c1)) (strip_contact c2)).length := by
    simp [create_graph]
  rw [hlen, add_contact_none_nil (strip_contact c1) h1s,
    add_contact_none_singleton_length _ _ _ h2s, contact_key_strip, contact_key_strip]
  by_cases hk : contact_key c1 = contact_key c2
  · simp [hk]
  · simp [hk]

/-- Witness for `canonical_merge_iff_contact_key`: both directions of the
criterion at concrete records — equal concatenated keys merge into one edge,
distinct concatenated keys yield two. -/
theorem canonical_merge_iff_contact_key_witness :
    (residue_key (["A", "ARG", "4", "NH1"] : List String) ≠ residue_key ["A", "GLU", "10", "OE1"]
      ∧ ((create_graph
            [⟨5, "sb", ["A", "ARG", "4", "NH1"], ["A", "GLU", "10", "OE1"]⟩,
             ⟨7, "sb", ["A", "GLU", "10", "OE1"], ["A", "ARG", "4", "NH1"]⟩] none).edges.length = 1
          ↔ contact_key ⟨5, "sb", ["A", "ARG", "4", "NH1"], ["A", "GLU", "10", "OE1"]⟩
              = contact_key ⟨7, "sb", ["A", "GLU", "10", "OE1"], ["A", "ARG", "4", "NH1"]⟩))
    ∧ ((create_graph
          [⟨5, "sb", ["A", "ARG", "4", "NH1"], ["A", "GLU", "10", "OE1"]⟩,
           ⟨7, "sb", ["A", "ASP", "2", "OD1"], ["A", "ARG", "4", "NH1"]⟩] none).edges.length = 1
        ↔ contact_key ⟨5, "sb", ["A", "ARG", "4", "NH1"], ["A", "GLU", "10", "OE1"]⟩
            = contact_key ⟨7, "sb", ["A", "ASP", "2", "OD1"], ["A", "ARG", "4", "NH1"]⟩) :=
  ⟨⟨by decide,
    canonical_merge_iff_contact_key.1
      ⟨5, "sb", ["A", "ARG", "4", "NH1"], ["A", "GLU", "10", "OE1"]⟩
      ⟨7, "sb", ["A", "GLU", "10", "OE1"], ["A", "ARG", "4", "NH1"]⟩ (by decide) (by decide)⟩,
   canonical_merge_iff_contact_key.1
     ⟨5, "sb", ["A", "ARG", "4", "NH1"], ["A", "GLU", "10", "OE1"]⟩
     ⟨7, "sb", ["A", "ASP", "2", "OD1"], ["A", "ARG", "4", "NH1"]⟩ (by decide) (by decide)⟩

theorem pairwise_lt_sort_dedup (l : List Nat) :
    List.Pairwise (· < ·) (List.insertionSort (· ≤ ·) l.dedup) := by
  have hs : List.Sorted (· ≤ ·) (List.insertionSort (· ≤ ·) l.dedup) :=
    List.sorted_insertionSort _ _
  have hn : (List.insertionSort (· ≤ ·) l.dedup).Nodup :=
    (List.perm_insertionSort _ _).symm.nodup (List.nodup_dedup l)
  exact (hs.and hn).imp fun h => lt_of_le_of_ne h.1 h.2

theorem lookup_map_keyfix_isSome (g : (String × FlareEdge) → (String × FlareEdge))
    (hg : ∀ kv, (g kv).1 = kv.1) (s : List (String × FlareEdge)) (k : String) :
    ((s.map g).lookup k).isSome = (s.lookup k).isSome := by
  induction s with
  | nil => rfl
  | cons kv s ih =>
    cases hbe : k == kv.1 with
    | true => simp [List.lookup, hg kv, hbe]
    | false => simp [List.lookup, hg kv, hbe, ih]

theorem lookup_map_update_isSome (s : List (String × FlareEdge)) (key k : String) (f : Nat) :
    ((s.map fun kv =>
        if kv.1 = key then (kv.1, ⟨kv.2.name1, kv.2.name2, kv.2.frames ++ [f]⟩) else kv).lookup
      k).isSome = (s.lookup k).isSome := by
  apply lookup_map_keyfix_isSome
  intro kv
  by_cases h : kv.1 = key
  · rw [if_pos h]
  · rw [if_neg h]

theorem lookup_append_isSome_left (s t : List (String × FlareEdge)) (k : String)
    (h : (s.lookup k).isSome = true) : ((s ++ t).lookup k).isSome = true := by
  induction s with
  | nil => exact absurd h (by simp [List.lookup])
  | cons kv s ih =>
    cases hbe : k == kv.1 with
    | true => simp [List.lookup, hbe]
    | false =>
      simp only [List.lookup, hbe] at h
      simp only [List.cons_append, List.lookup, hbe]
      exact ih h

theorem lookup_append_singleton_isSome (s : List (String × FlareEdge)) (k : String)
    (e : FlareEdge) : ((s ++ [(k, e)]).lookup k).isSome = true := by
  induction s with
  | nil => simp [List.lookup]
  | cons kv s ih =>
    cases hbe : k == kv.1 with
    | true => simp [List.lookup, hbe]
    | false =>
      simp only [List.cons_append, List.lookup, hbe]
      exact ih

theorem mem_lookup_isSome (s : List (String × FlareEdge)) (kv : String × FlareEdge)
    (h : kv ∈ s) : (s.lookup kv.1).isSome = true := by
  induction s with
  | nil => exact absurd h (List.not_mem_nil kv)
  | cons kv0 s ih =>
    rcases List.mem_cons.mp h with heq | hmem
    · subst heq
      simp [List.lookup]
    · cases hbe : kv.1 == kv0.1 with
      | true => simp [List.lookup, hbe]
      | false =>
        simp only [List.lookup, hbe]
        exact ih hmem

/-- Predicate `contributes c k f` says that record `c` maps to the edge grouped under
contact key `k` and contributes frame index `f`: it is not a self-loop, its
contact key is `k`, and its frame index is `f`. -/
def contributes (c : Contact) (k : String) (f : Nat) : Prop :=
  residue_key c.atom1 ≠ residue_key c.atom2 ∧ contact_key c = k ∧ c.frame = f

theorem contributes_strip (c : Contact) (k : String) (f : Nat) :
    contributes (strip_contact c) k f ↔ contributes c k f := by
  unfold contributes
  rw [residue_key_strip1, residue_key_strip2, contact_key_strip]
  exact Iff.rfl

theorem add_contact_none_inv (Q : String → Nat → Prop) (s : List (String × FlareEdge))
    (c : Contact)
    (h1 : ∀ kv ∈ s, kv.1 = (kv.2 : FlareEdge).name1 ++ kv.2.name2 ∧
      ∀ f, (f ∈ (kv.2 : FlareEdge).frames ↔ Q kv.1 f))
    (h2 : ∀ k f, Q k f → (s.lookup k).isSome = true) :
    (∀ kv ∈ add_contact none s c,
      kv.1 = (kv.2 : FlareEdge).name1 ++ kv.2.name2 ∧
      ∀ f, (f ∈ (kv.2 : FlareEdge).frames ↔ (Q kv.1 f ∨ contributes c kv.1 f)))
    ∧ (∀ k f, (Q k f ∨ contributes c k f) →
        ((add_contact none s c).lookup k).isSome = true) := by
  by_cases hself : residue_key c.atom1 = residue_key c.atom2
  · rw [add_contact_self_loop none s c hself]
    constructor
    · intro kv hkv
      obtain ⟨ha, hb⟩ := h1 kv hkv
      refine ⟨ha, fun f => ?_⟩
      rw [hb f]
      constructor
      · exact Or.inl
      · rintro (hq | ⟨hne, -, -⟩)
        · exact hq
        · exact absurd hself hne
    · intro k f hq
      rcases hq with hq | ⟨hne, -, -⟩
      · exact h2 k f hq
      · exact absurd hself hne
  · rw [add_contact_none_not_self s c hself]
    unfold record_edge
    by_cases hlk : (s.lookup (contact_key c)).isSome = true
    · rw [if_pos hlk]
      constructor
      · intro kv hkv
        obtain ⟨kv0, hkv0, hkveq⟩ := List.mem_map.mp hkv
        obtain ⟨ha0, hb0⟩ := h1 kv0 hkv0
        by_cases h0 : kv0.1 = contact_key c
        · rw [if_pos h0] at hkveq
          subst hkveq
          refine ⟨ha0, fun f => ?_⟩
          show f ∈ kv0.2.frames ++ [c.frame] ↔ _
          rw [List.mem_append, List.mem_singleton, hb0 f]
          constructor
          · rintro (hq | rfl)
            · exact Or.inl hq
            · exact Or.inr ⟨hself, h0.symm, rfl⟩
          · rintro (hq | ⟨-, -, hf⟩)
            · exact Or.inl hq
            · exact Or.inr hf.symm
        · rw [if_neg h0] at hkveq
          subst hkveq
          refine ⟨ha0, fun f => ?_⟩
          rw [hb0 f]
          constructor
          · exact Or.inl
          · rintro (hq | ⟨-, hkey, -⟩)
            · exact hq
            · exact absurd hkey.symm h0
      · intro k f hq
        rw [lookup_map_update_isSome]
        rcases hq with hq | ⟨-, hkey, -⟩
        · exact h2 k f hq
        · rw [← hkey]
          exact hlk
    · rw [if_neg hlk]
      have hnone : s.lookup (contact_key c) = none := by
        cases hcase : s.lookup (contact_key c) with
        | none => rfl
        | some e => rw [hcase] at hlk; exact absurd rfl hlk
      constructor
      · intro kv hkv
        rcases List.mem_append.mp hkv with hkv | hkv
        · obtain ⟨ha0, hb0⟩ := h1 kv hkv
          refine ⟨ha0, fun f => ?_⟩
          rw [hb0 f]
          constructor
          · exact Or.inl
          · rintro (hq | ⟨-, hkey, -⟩)
            · exact hq
            · have hsome := mem_lookup_isSome s kv hkv
              rw [← hkey, hnone] at hsome
              exact absurd hsome (by simp)
        · rw [List.mem_singleton.mp hkv]
          refine ⟨rfl, fun f => ?_⟩
          show f ∈ [c.frame] ↔ _
          rw [List.mem_singleton]
          constructor
          · rintro rfl
            exact Or.inr ⟨hself, rfl, rfl⟩
          · rintro (hq | ⟨-, -, hf⟩)
            · have hsome := h2 _ f hq
              rw [hnone] at hsome
              exact absurd hsome (by simp)
            · exact hf.symm
      · intro k f hq
        rcases hq with hq | ⟨-, hkey, -⟩
        · exact lookup_append_isSome_left s _ k (h2 k f hq)
        · rw [← hkey]
          exact lookup_append_singleton_isSome s (contact_key c) _

theorem foldl_add_contact_none_inv (cs : List Contact) (Q : String → Nat → Prop)
    (s : List (String × FlareEdge))
    (h1 : ∀ kv ∈ s, kv.1 = (kv.2 : FlareEdge).name1 ++ kv.2.name2 ∧
      ∀ f, (f ∈ (kv.2 : FlareEdge).frames ↔ Q kv.1 f))
    (h2 : ∀ k f, Q k f → (s.lookup k).isSome = true) :
    ∀ kv ∈ cs.foldl (add_contact none) s,
      kv.1 = (kv.2 : FlareEdge).name1 ++ kv.2.name2 ∧
      ∀ f, (f ∈ (kv.2 : FlareEdge).frames ↔
        (Q kv.1 f ∨ ∃ c ∈ cs, contributes c kv.1 f)) := by
  induction cs generalizing Q s with
  | nil =>
    intro kv hkv
    obtain ⟨ha, hb⟩ := h1 kv hkv
    refine ⟨ha, fun f => ?_⟩
    rw [hb f]
    simp
  | cons c cs ih =>
    intro kv hkv
    rw [List.foldl_cons] at hkv
    have step := add_contact_none_inv Q s c h1 h2
    have res := ih (fun k f => Q k f ∨ contributes c k f) (add_contact none s c)
      step.1 step.2 kv hkv
    refine ⟨res.1, fun f => ?_⟩
    rw [res.2 f]
    constructor
    · rintro ((hq | hc) | ⟨c', hc', ha⟩)
      · exact Or.inl hq
      · exact Or.inr ⟨c, List.mem_cons_self c cs, hc⟩
      · exact Or.inr ⟨c', List.mem_cons_of_mem c hc', ha⟩
    · rintro (hq | ⟨c', hc', ha⟩)
      · exact Or.inl (Or.inl hq)
      · rcases List.mem_cons.mp hc' with heq | hc'
        · subst heq
          exact Or.inl (Or.inr ha)
        · exact Or.inr ⟨c', hc', ha⟩

/-- C6: every edge of the built graph carries a strictly ascending (hence
duplicate-free) frame list; with no label table, a frame index appears on an
edge exactly when some non-self-loop input record groups to that edge's
contact key with that frame index; and the three-record scenario with two
atoms of `R1 = A:ARG:1` contacting `R2 = A:ASP:2` in frames `0, 0, 1`
produces the single edge `(R1, R2)` with frames `[0, 1]`. -/
theorem frames_sorted_dedup_of_records :
    (∀ (contacts : List Contact) (resi_labels : Option (List (String × ResiLabel)))
       (e : FlareEdge),
      e ∈ (create_graph contacts resi_labels).edges → List.Pairwise (· < ·) e.frames)
    ∧ (∀ (contacts : List Contact) (e : FlareEdge),
        e ∈ (create_graph contacts none).edges →
        ∀ f : Nat, (f ∈ e.frames ↔
          ∃ c ∈ contacts, contributes c (e.name1 ++ e.name2) f))
    ∧ (create_graph
        [⟨0, "sb", ["A", "ARG", "1", "NH1"], ["A", "ASP", "2", "OD1"]⟩,
         ⟨0, "sb", ["A", "ARG", "1", "NH2"], ["A", "ASP", "2", "OD1"]⟩,
         ⟨1, "sb", ["A", "ARG", "1", "NH1"], ["A", "ASP", "2", "OD1"]⟩] none).edges
      = [⟨"A:ARG:1", "A:ASP:2", [0, 1]⟩] := by
  refine ⟨fun contacts resi_labels e he => ?_, fun contacts e he f => ?_, by decide⟩
  · simp only [create_graph] at he
    obtain ⟨kv, hkv, hkveq⟩ := List.mem_map.mp he
    subst hkveq
    exact pairwise_lt_sort_dedup kv.2.frames
  · simp only [create_graph] at he
    obtain ⟨kv, hkv, hkveq⟩ := List.mem_map.mp he
    have hinv := foldl_add_contact_none_inv (contacts.map strip_contact)
      (fun _ _ => False) []
      (by intro kv h; exact absurd h (List.not_mem_nil _))
      (by intro k f h; exact h.elim) kv hkv
    subst hkveq
    show f ∈ List.insertionSort (· ≤ ·) kv.2.frames.dedup ↔ _
    rw [(List.perm_insertionSort _ _).mem_iff, List.mem_dedup, hinv.2 f]
    simp only [false_or]
    show _ ↔ ∃ c ∈ contacts, contributes c (kv.2.name1 ++ kv.2.name2) f
    rw [← hinv.1]
    constructor
    · rintro ⟨c', hc', hco⟩
      obtain ⟨c0, hc0, hceq⟩ := List.mem_map.mp hc'
      subst hceq
      exact ⟨c0, hc0, (contributes_strip c0 kv.1 f).mp hco⟩
    · rintro ⟨c0, hc0, hco⟩
      exact ⟨strip_contact c0, List.mem_map_of_mem _ hc0,
        (contributes_strip c0 kv.1 f).mpr hco⟩

/-- Witness for `frames_sorted_dedup_of_records`: the scenario edge is indeed
strictly ascending, and frame `0` lies on it because the first record
contributes it. -/
theorem frames_sorted_dedup_of_records_witness :
    List.Pairwise (· < ·) (FlareEdge.mk "A:ARG:1" "A:ASP:2" [0, 1]).frames
    ∧ ((0 : Nat) ∈ (FlareEdge.mk "A:ARG:1" "A:ASP:2" [0, 1]).frames ↔
        ∃ c ∈ [(⟨0, "sb", ["A", "ARG", "1", "NH1"], ["A", "ASP", "2", "OD1"]⟩ : Contact),
               ⟨0, "sb", ["A", "ARG", "1", "NH2"], ["A", "ASP", "2", "OD1"]⟩,
               ⟨1, "sb", ["A", "ARG", "1", "NH1"], ["A", "ASP", "2", "OD1"]⟩],
          contributes c ((FlareEdge.mk "A:ARG:1" "A:ASP:2" [0, 1]).name1
            ++ (FlareEdge.mk "A:ARG:1" "A:ASP:2" [0, 1]).name2) 0) :=
  ⟨frames_sorted_dedup_of_records.1
    [⟨0, "sb", ["A", "ARG", "1", "NH1"], ["A", "ASP", "2", "OD1"]⟩,
     ⟨0, "sb", ["A", "ARG", "1", "NH2"], ["A", "ASP", "2", "OD1"]⟩,
     ⟨1, "sb", ["A", "ARG", "1", "NH1"], ["A", "ASP", "2", "OD1"]⟩] none
    ⟨"A:ARG:1", "A:ASP:2", [0, 1]⟩ (by decide),
   frames_sorted_dedup_of_records.2.1
    [⟨0, "sb", ["A", "ARG", "1", "NH1"], ["A", "ASP", "2", "OD1"]⟩,
     ⟨0, "sb", ["A", "ARG", "1", "NH2"], ["A", "ASP", "2", "OD1"]⟩,
     ⟨1, "sb", ["A", "ARG", "1", "NH1"], ["A", "ASP", "2", "OD1"]⟩]
    ⟨"A:ARG:1", "A:ASP:2", [0, 1]⟩ (by decide) 0⟩

end GetContacts
